import Mathlib

/-!
Verification development for the resilient generative-AI invocation layer
(`ai_services`): credential rotation (`services/key_manager.py`), call pacing
(`services/throttler.py`), retry-with-backoff (`services/gemini_client.py`)
and response caching (`services/cache.py`).

Python strings are embedded as lists of characters (`Str`), Python dict-backed
state as association lists, and the asynchronous retry loop as a fuel-indexed
recursion whose fuel equals the remaining loop iterations.  External pieces
(the hash function from `hashlib`, the upstream HTTP endpoint, wall-clock time
and the random sampler) are parameters of the embedded functions.
-/

namespace CompanyResearch

/-- Python strings, embedded structurally as character lists. -/
abbrev Str := List Char

/-- Python `str.strip()`: drop whitespace from both ends. -/
def pyStrip (s : Str) : Str :=
  ((s.dropWhile Char.isWhitespace).reverse.dropWhile Char.isWhitespace).reverse

/-- Python `sub in s` (substring containment), as a Bool. -/
def pyInB (sub s : Str) : Bool := decide (sub <:+: s)

/-- Python `pattern.replace(Char.ofNat 42 |>.toString, empty)` for the one-character
pattern `*`: removes every asterisk, as done in `Cache.clear_pattern`. -/
def removeStars (p : Str) : Str := p.filter (fun c => decide (c ≠ '*'))

/-- Default of `settings.cache_ttl` from `config/settings.py`. -/
def cache_ttl_default : Nat := 7200

/-- Values held by the in-memory cache backend (`Cache.memory_cache` is a plain
Python dict and stores whatever object the caller passes): either a plain
string, or the one-field dict `{'text': ...}` stored by `set_gemini_response`
via `GeminiClient.call_with_retry`. -/
inductive PyVal where
  | pstr (s : Str)
  | pdict (text : Str)
deriving DecidableEq

/-- Python truthiness of a cached value: a string is truthy iff non-empty; the
`{'text': ...}` dict is a non-empty dict, hence always truthy. -/
def PyVal.truthy : PyVal → Bool
  | .pstr s => !s.isEmpty
  | .pdict _ => true

/-- The in-memory backend state (`Cache.memory_cache`), an association list
with unique keys; assignment replaces in place. -/
abbrev MemCache := List (Str × PyVal)

namespace Cache

/-- Model of `Cache.get` on the in-memory backend: `self.memory_cache.get(key)`.
Note the read performs no expiry check of any kind. -/
def get : MemCache → Str → Option PyVal
  | [], _ => none
  | (k', v) :: rest, k => if k' = k then some v else get rest k

/-- Model of `Cache.set` on the in-memory backend: resolves `ttl` to the configured
default when absent, then executes `self.memory_cache[key] = value`.  The
resolved `ttl` is not recorded anywhere on this backend. -/
def set (c : MemCache) (k : Str) (v : PyVal) (ttl : Option Nat) : Bool × MemCache :=
  let _resolved_ttl : Nat := ttl.getD cache_ttl_default
  (true, (k, v) :: c.filter (fun p => decide (p.1 ≠ k)))

/-- Model of `Cache.delete` on the in-memory backend: `self.memory_cache.pop(key, None)`. -/
def del (c : MemCache) (k : Str) : Bool × MemCache :=
  (true, c.filter (fun p => decide (p.1 ≠ k)))

/-- Model of `Cache.clear_pattern` on the in-memory backend: collects the keys `k` with
`pattern.replace(asterisk, empty) in k` (substring containment), deletes those
entries and returns how many keys were collected. -/
def clear_pattern (c : MemCache) (pattern : Str) : Nat × MemCache :=
  let needle := removeStars pattern
  let keys_to_delete := (c.map Prod.fst).filter (fun k => pyInB needle k)
  (keys_to_delete.length, c.filter (fun p => !(pyInB needle p.1)))

/-- Model of `Cache._make_cache_key`: join a purpose tag and fields with a colon. -/
def make_cache_key (tag : Str) (args : List Str) : Str :=
  (tag :: args).intersperse [':'] |>.flatten

/-- The key built by `get_gemini_response` / `set_gemini_response`:
`gemini:` followed by the hex digest of the prompt.  `hashFn` stands for the
external `hashlib.md5(...).hexdigest()`; note the key depends on the prompt
text alone. -/
def gemini_key (hashFn : Str → Str) (prompt : Str) : Str :=
  ("gemini:".data) ++ hashFn prompt

/-- Model of `Cache.get_gemini_response` on the in-memory backend. -/
def get_gemini_response (c : MemCache) (hashFn : Str → Str) (prompt : Str) : Option PyVal :=
  get c (gemini_key hashFn prompt)

/-- Model of `Cache.set_gemini_response` on the in-memory backend; the client passes the
dict `{'text': response_text}` as the value. -/
def set_gemini_response (c : MemCache) (hashFn : Str → Str) (prompt : Str)
    (response : PyVal) (ttl : Option Nat) : Bool × MemCache :=
  set c (gemini_key hashFn prompt) response ttl

end Cache

/-! KeyManager (`services/key_manager.py`). -/

/-- State of `KeyManager`: the configured key list, the round-robin cursor and
the failed set (modelled as a duplicate-free list). -/
structure KeyManager where
  keys : List Str
  current_index : Nat
  failed_keys : List Str
deriving DecidableEq

/-- Model of `KeyManager.__init__`: keeps the keys that are truthy and have truthy
`strip()`. -/
def KeyManager.init (api_keys : List Str) : KeyManager :=
  ⟨api_keys.filter (fun k => !k.isEmpty && !(pyStrip k).isEmpty), 0, []⟩

/-- Model of `KeyManager.get_key`: returns `None` when no keys are configured;
otherwise round-robins over the keys not in the failed set, clearing the
failed set first when it covers every key. -/
def KeyManager.get_key (km : KeyManager) : Option Str × KeyManager :=
  if km.keys.isEmpty then (none, km)
  else
    let available₀ := km.keys.filter (fun k => decide (k ∉ km.failed_keys))
    let cleared := available₀.isEmpty
    let available := if cleared then km.keys else available₀
    let failed := if cleared then [] else km.failed_keys
    let key := available.getD (km.current_index % available.length) []
    (some key,
      { km with
          current_index := (km.current_index + 1) % available.length
          failed_keys := failed })

/-- Model of `KeyManager.mark_failed`: idempotent insertion into the failed set. -/
def KeyManager.mark_failed (km : KeyManager) (k : Str) : KeyManager :=
  { km with failed_keys := if km.failed_keys.contains k then km.failed_keys else k :: km.failed_keys }

/-! Throttler (`services/throttler.py`).  Time is modelled by rationals under
an idealized clock: `now` is the value of the first `time.time()` call,
`sampled` the value returned by `random.uniform(min_delay, max_delay)`, and
`asyncio.sleep d` advances the clock by exactly `d`, so the second
`time.time()` reads the advanced clock.  The returned first component is the
moment control returns to the caller (the grant time). -/

/-- State of `Throttler`: configured delay bounds and the last-grant
timestamp. -/
structure Throttler where
  min_delay : ℚ
  max_delay : ℚ
  last_request_time : Option ℚ

/-- Model of `Throttler.wait` under the idealized clock: computes the elapsed time
since the previous grant, sleeps out the remainder of the freshly sampled
required delay, and records the new last-grant timestamp at the moment
control is about to return. -/
def Throttler.wait (th : Throttler) (now sampled : ℚ) : ℚ × Throttler :=
  match th.last_request_time with
  | none => (now, { th with last_request_time := some now })
  | some t =>
    let elapsed := now - t
    let required_delay := sampled
    if elapsed < required_delay then
      let wait_time := required_delay - elapsed
      (now + wait_time, { th with last_request_time := some (now + wait_time) })
    else
      (now, { th with last_request_time := some now })

/-! Retry loop (`GeminiClient._call_with_custom_retry` in
`services/gemini_client.py`).  The upstream endpoint is modelled as a function
from the index of the outbound HTTP call to its response. -/

/-- One upstream answer: a 200 response carrying the text extracted from
`candidates[0].content.parts[0].text` (defaults compose to the empty string),
a 429, or any other status code. -/
inductive UpstreamResponse where
  | ok (text : Str)
  | rateLimited
  | otherStatus (code : Nat)
deriving DecidableEq

/-- How the retry loop terminates: a returned text, the `RateLimitError`
raised after exhausting the schedule on 429s, the generic exception raised
when `get_key` returned `None` surfacing after the last attempt, a generic
API-status exception surfacing after the last attempt, or the unreachable
fall-through after the loop. -/
inductive RetryOutcome where
  | success (text : Str)
  | rateLimitExhausted
  | noKeysError
  | upstreamError (code : Nat)
  | maxRetriesExceeded
deriving DecidableEq

/-- Observable trace of one run of the retry loop: the terminal outcome, the
final credential-pool state, the number of outbound HTTP calls, the number of
`get_key` calls, and the sleeps performed, in order. -/
structure RetryTrace where
  outcome : RetryOutcome
  km : KeyManager
  httpCalls : Nat
  keyAcquisitions : Nat
  sleeps : List Nat
deriving DecidableEq

/-- The fixed fallback returned on a well-formed 200 whose payload text is
empty. -/
def fallback_text : Str := "Unable to generate response at this time.".data

/-- The body of the `while attempt < max_attempts` loop, with fuel equal to
`max_attempts - attempt` at entry.  Each iteration acquires a key (a `None`
raises a generic exception handled like any other non-429 failure), then
issues one outbound call and classifies the response exactly as the source:
200 returns the text or the fixed fallback, 429 sleeps
`retry_delays[attempt]` and continues if attempts remain (else raises
`RateLimitError`), any other status raises a generic exception which sleeps
and continues if attempts remain (else surfaces). -/
def retryLoop (retry_delays : List Nat) (responses : Nat → UpstreamResponse) :
    Nat → KeyManager → Nat → Nat → Nat → List Nat → RetryTrace
  | 0, km, _attempt, calls, acqs, sleeps =>
    ⟨.maxRetriesExceeded, km, calls, acqs, sleeps⟩
  | fuel + 1, km, attempt, calls, acqs, sleeps =>
    let max_attempts := retry_delays.length + 1
    let r := KeyManager.get_key km
    match r.1 with
    | none =>
      if attempt < max_attempts - 1 then
        retryLoop retry_delays responses fuel r.2 (attempt + 1) calls (acqs + 1)
          (sleeps ++ [retry_delays.getD attempt 0])
      else
        ⟨.noKeysError, r.2, calls, acqs + 1, sleeps⟩
    | some _api_key =>
      match responses calls with
      | .ok text =>
        if text.isEmpty then
          ⟨.success fallback_text, r.2, calls + 1, acqs + 1, sleeps⟩
        else
          ⟨.success text, r.2, calls + 1, acqs + 1, sleeps⟩
      | .rateLimited =>
        if attempt < max_attempts - 1 then
          retryLoop retry_delays responses fuel r.2 (attempt + 1) (calls + 1) (acqs + 1)
            (sleeps ++ [retry_delays.getD attempt 0])
        else
          ⟨.rateLimitExhausted, r.2, calls + 1, acqs + 1, sleeps⟩
      | .otherStatus code =>
        if attempt < max_attempts - 1 then
          retryLoop retry_delays responses fuel r.2 (attempt + 1) (calls + 1) (acqs + 1)
            (sleeps ++ [retry_delays.getD attempt 0])
        else
          ⟨.upstreamError code, r.2, calls + 1, acqs + 1, sleeps⟩

/-- Model of `GeminiClient._call_with_custom_retry` with `max_attempts =
len(retry_delays) + 1` total attempts, starting at the given attempt index
(0 by default at every call site). -/
def call_with_custom_retry (retry_delays : List Nat) (responses : Nat → UpstreamResponse)
    (km : KeyManager) (attempt : Nat) : RetryTrace :=
  retryLoop retry_delays responses (retry_delays.length + 1 - attempt) km attempt 0 0 []

/-! The pipeline entry point (`GeminiClient.call_with_retry`). -/

/-- Result value of the pipeline: a `GeminiResponse(text, cached)`, a
propagated terminal exception of the retry loop, or the `TypeError` Python
raises when subscripting a cached plain string with `['text']`. -/
inductive CallOutcome where
  | success (text : Str) (cached : Bool)
  | error (e : RetryOutcome)
  | typeErr
deriving DecidableEq

/-- Observable result of one `call_with_retry` invocation: the outcome plus
the final shared state (cache, throttler, credential pool) and the
side-effect counters of the underlying retry loop.  `paced` records whether
`throttler.wait` was invoked. -/
structure CallResult where
  outcome : CallOutcome
  cache : MemCache
  throttler : Throttler
  km : KeyManager
  httpCalls : Nat
  keyAcquisitions : Nat
  sleeps : List Nat
  paced : Bool

/-- The cache-miss path of `call_with_retry`: throttle, run the custom retry
schedule, and on success cache `{'text': response_text}` when `use_cache` is
set and the text is truthy (the fixed fallback is non-empty, hence truthy). -/
def call_miss (cacheSt : MemCache) (th : Throttler) (km : KeyManager)
    (hashFn : Str → Str) (retry_delays : List Nat) (responses : Nat → UpstreamResponse)
    (now sampled : ℚ) (prompt : Str) (use_cache : Bool) : CallResult :=
  let w := Throttler.wait th now sampled
  let trace := call_with_custom_retry retry_delays responses km 0
  match trace.outcome with
  | .success text =>
    if use_cache && !text.isEmpty then
      ⟨.success text false,
        (Cache.set_gemini_response cacheSt hashFn prompt (.pdict text) none).2,
        w.2, trace.km, trace.httpCalls, trace.keyAcquisitions, trace.sleeps, true⟩
    else
      ⟨.success text false, cacheSt, w.2, trace.km, trace.httpCalls,
        trace.keyAcquisitions, trace.sleeps, true⟩
  | e =>
    ⟨.error e, cacheSt, w.2, trace.km, trace.httpCalls,
      trace.keyAcquisitions, trace.sleeps, true⟩

/-- Model of `GeminiClient.call_with_retry`: when `use_cache` is set, look up
`cache.get_gemini_response(prompt)` first; a truthy hit returns
`GeminiResponse(text=cached[...], cached=True)` at once, touching neither the
throttler nor the credential pool; otherwise throttle, run the retry loop and
cache the result.  `temperature` and `max_output_tokens` are carried into the
outbound request body only (the stub upstream `responses` abstracts the
external endpoint), and in particular do not enter the cache key. -/
def call_with_retry (cacheSt : MemCache) (th : Throttler) (km : KeyManager)
    (hashFn : Str → Str) (retry_delays : List Nat) (responses : Nat → UpstreamResponse)
    (now sampled : ℚ) (prompt : Str) (_temperature : ℚ) (_max_output_tokens : Nat)
    (use_cache : Bool) : CallResult :=
  let hit : Option PyVal :=
    if use_cache then Cache.get_gemini_response cacheSt hashFn prompt else none
  match hit with
  | some v =>
    if v.truthy then
      match v with
      | .pdict text => ⟨.success text true, cacheSt, th, km, 0, 0, [], false⟩
      | .pstr _ => ⟨.typeErr, cacheSt, th, km, 0, 0, [], false⟩
    else
      call_miss cacheSt th km hashFn retry_delays responses now sampled prompt use_cache
  | none =>
    call_miss cacheSt th km hashFn retry_delays responses now sampled prompt use_cache

/-! Concrete stand-ins used by the closed witness instances below. -/

/-- A concrete stand-in for the external hex-digest function. -/
def hfDemo : Str → Str := fun _ => "h".data

/-- A one-credential pool. -/
def kmDemo : KeyManager := KeyManager.init [("k1".data)]

/-- A throttler state that has not granted a slot yet. -/
def thDemo : Throttler := ⟨2, 4, none⟩

/-- A concrete prompt. -/
def promptDemo : Str := "p".data

/-! Helper lemmas, used by the claim theorems below. -/

/-! Helper lemmas about the in-memory cache. -/

theorem Cache.get_set_self (c : MemCache) (k : Str) (v : PyVal) (ttl : Option Nat) :
    Cache.get (Cache.set c k v ttl).2 k = some v := by
  simp [Cache.set, Cache.get]

theorem Cache.get_filter_del (c : MemCache) (del : Str → Bool) (k : Str) :
    Cache.get (c.filter (fun p => !(del p.1))) k
      = if del k then none else Cache.get c k := by
  induction c with
  | nil => by_cases h : del k <;> simp [Cache.get, h]
  | cons hd tl ih =>
    obtain ⟨k', v⟩ := hd
    by_cases hd' : del k'
    · by_cases hk : k' = k
      · subst hk; simp [Cache.get, hd', ih]
      · simp [Cache.get, hd', hk, ih]
    · by_cases hk : k' = k
      · subst hk; simp [Cache.get, hd']
      · simp [Cache.get, hd', hk, ih]

theorem Cache.filter_del_length (c : MemCache) (del : Str → Bool) :
    ((c.map Prod.fst).filter del).length
      + (c.filter (fun p => !(del p.1))).length = c.length := by
  induction c with
  | nil => simp
  | cons hd tl ih =>
    by_cases hd' : del hd.1 <;>
      simp [List.filter_cons, hd', ih] <;> omega

theorem KeyManager.get_key_keys (km : KeyManager) :
    (KeyManager.get_key km).2.keys = km.keys := by
  unfold KeyManager.get_key
  split <;> rfl

theorem KeyManager.get_key_isSome (km : KeyManager) (h : km.keys ≠ []) :
    ∃ k, (KeyManager.get_key km).1 = some k := by
  unfold KeyManager.get_key
  rw [if_neg (by simpa using h)]
  exact ⟨_, rfl⟩

theorem KeyManager.get_key_empty (km : KeyManager) (h : km.keys = []) :
    KeyManager.get_key km = (none, km) := by
  unfold KeyManager.get_key
  rw [if_pos (by simpa using h)]

/-! Runs of the retry loop. -/

theorem retryLoop_always429 (delays : List Nat) :
    ∀ fuel attempt calls acqs (sleeps : List Nat) (km : KeyManager),
      km.keys ≠ [] → fuel + attempt = delays.length + 1 → attempt ≤ delays.length →
      ∃ km', retryLoop delays (fun _ => .rateLimited) fuel km attempt calls acqs sleeps
        = ⟨.rateLimitExhausted, km', calls + fuel, acqs + fuel, sleeps ++ delays.drop attempt⟩ := by
  intro fuel
  induction fuel with
  | zero => intro attempt calls acqs sleeps km _ hfa hle; omega
  | succ f ih =>
    intro attempt calls acqs sleeps km hkm hfa hle
    obtain ⟨k, hk⟩ := KeyManager.get_key_isSome km hkm
    by_cases hlt : attempt < delays.length
    · obtain ⟨km', heq⟩ := ih (attempt + 1) (calls + 1) (acqs + 1)
        (sleeps ++ [delays.getD attempt 0]) (KeyManager.get_key km).2
        (by rw [KeyManager.get_key_keys]; exact hkm) (by omega) (by omega)
      refine ⟨km', ?_⟩
      simp only [retryLoop, hk, Nat.add_sub_cancel]
      rw [if_pos hlt, heq]
      have h1 : calls + 1 + f = calls + (f + 1) := by omega
      have h2 : acqs + 1 + f = acqs + (f + 1) := by omega
      have h3 : sleeps ++ [delays.getD attempt 0] ++ delays.drop (attempt + 1)
          = sleeps ++ delays.drop attempt := by
        rw [List.append_assoc, List.drop_eq_getElem_cons hlt,
          List.getD_eq_getElem delays 0 hlt, List.singleton_append]
      rw [h1, h2, h3]
    · have ha : attempt = delays.length := by omega
      have hf : f = 0 := by omega
      refine ⟨(KeyManager.get_key km).2, ?_⟩
      simp only [retryLoop, hk, Nat.add_sub_cancel]
      rw [if_neg hlt]
      subst ha
      subst hf
      rw [List.drop_length, List.append_nil]

theorem retryLoop_noKeys (delays : List Nat) (responses : Nat → UpstreamResponse) :
    ∀ fuel attempt calls acqs (sleeps : List Nat) (km : KeyManager),
      km.keys = [] → fuel + attempt = delays.length + 1 → attempt ≤ delays.length →
      retryLoop delays responses fuel km attempt calls acqs sleeps
        = ⟨.noKeysError, km, calls, acqs + fuel, sleeps ++ delays.drop attempt⟩ := by
  intro fuel
  induction fuel with
  | zero => intro attempt calls acqs sleeps km _ hfa hle; omega
  | succ f ih =>
    intro attempt calls acqs sleeps km hkm hfa hle
    have hnone := KeyManager.get_key_empty km hkm
    by_cases hlt : attempt < delays.length
    · have heq := ih (attempt + 1) calls (acqs + 1)
        (sleeps ++ [delays.getD attempt 0]) km hkm (by omega) (by omega)
      simp only [retryLoop, hnone, Nat.add_sub_cancel]
      rw [if_pos hlt, heq]
      have h2 : acqs + 1 + f = acqs + (f + 1) := by omega
      have h3 : sleeps ++ [delays.getD attempt 0] ++ delays.drop (attempt + 1)
          = sleeps ++ delays.drop attempt := by
        rw [List.append_assoc, List.drop_eq_getElem_cons hlt,
          List.getD_eq_getElem delays 0 hlt, List.singleton_append]
      rw [h2, h3]
    · have ha : attempt = delays.length := by omega
      have hf : f = 0 := by omega
      simp only [retryLoop, hnone, Nat.add_sub_cancel]
      rw [if_neg hlt]
      subst ha
      subst hf
      rw [List.drop_length, List.append_nil]

theorem retryLoop_429_until_empty (delays : List Nat) (responses : Nat → UpstreamResponse)
    (j : Nat) (hj : j ≤ delays.length)
    (h429 : ∀ i, i < j → responses i = .rateLimited)
    (hemp : responses j = .ok []) :
    ∀ fuel attempt acqs (sleeps : List Nat) (km : KeyManager),
      km.keys ≠ [] → fuel + attempt = delays.length + 1 → attempt ≤ j →
      ∃ km', retryLoop delays responses fuel km attempt attempt acqs sleeps
        = ⟨.success fallback_text, km', j + 1, acqs + (j - attempt) + 1,
            sleeps ++ (delays.drop attempt).take (j - attempt)⟩ := by
  intro fuel
  induction fuel with
  | zero => intro attempt acqs sleeps km _ hfa hle; omega
  | succ f ih =>
    intro attempt acqs sleeps km hkm hfa hle
    obtain ⟨k, hk⟩ := KeyManager.get_key_isSome km hkm
    by_cases hlt : attempt < j
    · have hresp := h429 attempt hlt
      have hltd : attempt < delays.length := by omega
      obtain ⟨km', heq⟩ := ih (attempt + 1) (acqs + 1)
        (sleeps ++ [delays.getD attempt 0]) (KeyManager.get_key km).2
        (by rw [KeyManager.get_key_keys]; exact hkm) (by omega) (by omega)
      refine ⟨km', ?_⟩
      simp only [retryLoop, hk, hresp, Nat.add_sub_cancel]
      rw [if_pos hltd, heq]
      have h2 : acqs + 1 + (j - (attempt + 1)) + 1 = acqs + (j - attempt) + 1 := by omega
      have h3 : sleeps ++ [delays.getD attempt 0]
            ++ (delays.drop (attempt + 1)).take (j - (attempt + 1))
          = sleeps ++ (delays.drop attempt).take (j - attempt) := by
        have hsub : j - attempt = (j - (attempt + 1)) + 1 := by omega
        rw [List.append_assoc, List.drop_eq_getElem_cons hltd,
          List.getD_eq_getElem delays 0 hltd, hsub, List.take_succ_cons,
          List.singleton_append]
      rw [h2, h3]
    · have ha : attempt = j := by omega
      refine ⟨(KeyManager.get_key km).2, ?_⟩
      subst ha
      simp only [retryLoop, hk, hemp, Nat.add_sub_cancel, List.isEmpty_nil, if_true]
      rw [Nat.sub_self, List.take_zero, List.append_nil, Nat.add_zero]

theorem call_with_custom_retry_first_ok (delays : List Nat)
    (responses : Nat → UpstreamResponse) (km : KeyManager) (r : Str)
    (hkm : km.keys ≠ []) (hresp : responses 0 = .ok r) (hr : r ≠ []) :
    call_with_custom_retry delays responses km 0
      = ⟨.success r, (KeyManager.get_key km).2, 1, 1, []⟩ := by
  obtain ⟨k, hk⟩ := KeyManager.get_key_isSome km hkm
  unfold call_with_custom_retry
  simp only [Nat.sub_zero, retryLoop, hk, hresp]
  rw [if_neg (by simpa using hr)]

theorem call_with_custom_retry_first_empty (delays : List Nat)
    (responses : Nat → UpstreamResponse) (km : KeyManager)
    (hkm : km.keys ≠ []) (hresp : responses 0 = .ok []) :
    call_with_custom_retry delays responses km 0
      = ⟨.success fallback_text, (KeyManager.get_key km).2, 1, 1, []⟩ := by
  obtain ⟨k, hk⟩ := KeyManager.get_key_isSome km hkm
  unfold call_with_custom_retry
  simp only [Nat.sub_zero, retryLoop, hk, hresp, List.isEmpty_nil, if_true]

/-! Helper lemmas about the pipeline. -/

theorem call_with_retry_hit (cacheSt : MemCache) (th : Throttler) (km : KeyManager)
    (hashFn : Str → Str) (retry_delays : List Nat) (responses : Nat → UpstreamResponse)
    (now sampled : ℚ) (prompt : Str) (temperature : ℚ) (max_output_tokens : Nat)
    (t : Str) (h : Cache.get_gemini_response cacheSt hashFn prompt = some (.pdict t)) :
    call_with_retry cacheSt th km hashFn retry_delays responses now sampled prompt
        temperature max_output_tokens true
      = ⟨.success t true, cacheSt, th, km, 0, 0, [], false⟩ := by
  simp [call_with_retry, h, PyVal.truthy]

theorem call_with_retry_miss_ok (cacheSt : MemCache) (th : Throttler) (km : KeyManager)
    (hashFn : Str → Str) (retry_delays : List Nat) (responses : Nat → UpstreamResponse)
    (now sampled : ℚ) (prompt : Str) (temperature : ℚ) (max_output_tokens : Nat) (r : Str)
    (hmiss : Cache.get_gemini_response cacheSt hashFn prompt = none)
    (hkm : km.keys ≠ []) (hresp : responses 0 = .ok r) (hr : r ≠ []) :
    call_with_retry cacheSt th km hashFn retry_delays responses now sampled prompt
        temperature max_output_tokens true
      = ⟨.success r false,
          (Cache.set_gemini_response cacheSt hashFn prompt (.pdict r) none).2,
          (Throttler.wait th now sampled).2, (KeyManager.get_key km).2, 1, 1, [], true⟩ := by
  have htr := call_with_custom_retry_first_ok retry_delays responses km r hkm hresp hr
  have hre : r.isEmpty = false := by
    cases r with
    | nil => exact absurd rfl hr
    | cons a l => rfl
  simp [call_with_retry, hmiss, call_miss, htr, hre]

theorem call_with_retry_miss_empty (cacheSt : MemCache) (th : Throttler) (km : KeyManager)
    (hashFn : Str → Str) (retry_delays : List Nat) (responses : Nat → UpstreamResponse)
    (now sampled : ℚ) (prompt : Str) (temperature : ℚ) (max_output_tokens : Nat)
    (hmiss : Cache.get_gemini_response cacheSt hashFn prompt = none)
    (hkm : km.keys ≠ []) (hresp : responses 0 = .ok []) :
    call_with_retry cacheSt th km hashFn retry_delays responses now sampled prompt
        temperature max_output_tokens true
      = ⟨.success fallback_text false,
          (Cache.set_gemini_response cacheSt hashFn prompt (.pdict fallback_text) none).2,
          (Throttler.wait th now sampled).2, (KeyManager.get_key km).2, 1, 1, [], true⟩ := by
  have htr := call_with_custom_retry_first_empty retry_delays responses km hkm hresp
  have hfe : fallback_text.isEmpty = false := by decide
  simp [call_with_retry, hmiss, call_miss, htr, hfe]

theorem Cache.get_gemini_response_set_self (c : MemCache) (hashFn : Str → Str)
    (prompt : Str) (v : PyVal) (ttl : Option Nat) :
    Cache.get_gemini_response (Cache.set_gemini_response c hashFn prompt v ttl).2
        hashFn prompt = some v := by
  simp [Cache.get_gemini_response, Cache.set_gemini_response, Cache.get_set_self]

theorem call_with_retry_miss_error (cacheSt : MemCache) (th : Throttler) (km : KeyManager)
    (hashFn : Str → Str) (retry_delays : List Nat) (responses : Nat → UpstreamResponse)
    (now sampled : ℚ) (prompt : Str) (temperature : ℚ) (max_output_tokens : Nat)
    (e : RetryOutcome)
    (hmiss : Cache.get_gemini_response cacheSt hashFn prompt = none)
    (htr : (call_with_custom_retry retry_delays responses km 0).outcome = e)
    (he : ∀ t, e ≠ .success t) :
    (call_with_retry cacheSt th km hashFn retry_delays responses now sampled prompt
        temperature max_output_tokens true).outcome = .error e := by
  simp only [call_with_retry, hmiss, call_miss, htr]
  cases e with
  | success t => exact absurd rfl (he t)
  | rateLimitExhausted => rfl
  | noKeysError => rfl
  | upstreamError code => rfl
  | maxRetriesExceeded => rfl

/-! Claim theorems. -/

/-- C1: the claim states that `Cache.set(k, v, t)` followed by an immediate
`Cache.get(k)` returns `v` (which holds), and that any `get(k)` after the TTL
has elapsed returns absent, with the read performing the expiry check on the
in-memory backend.  The code contradicts the second half: on the in-memory
backend `set` resolves the ttl and then discards it (the resulting state is
identical for any two ttls and carries no expiration instant), and `get`
consults no clock, so a read performed arbitrarily long after the TTL still
returns `v`. -/
theorem C1_memory_backend_ignores_ttl (k : Str) (v : PyVal) (ttl₁ ttl₂ : Option Nat)
    (c : MemCache) :
    (Cache.set c k v ttl₁).2 = (Cache.set c k v ttl₂).2 ∧
    Cache.get (Cache.set c k v ttl₁).2 k = some v :=
  ⟨rfl, Cache.get_set_self c k v ttl₁⟩

/-- C1 witness: the failing input of the claim — `set(k, v, ttl=1)` stores
exactly the state `set(k, v, ttl=7200)` would, and the later `get(k)` finds
`v` because no expiry information exists to check. -/
theorem C1_memory_backend_ignores_ttl_witness :
    (Cache.set [] ("k".data) (.pstr ("v".data)) (some 1)).2
        = (Cache.set [] ("k".data) (.pstr ("v".data)) (some 7200)).2 ∧
    Cache.get (Cache.set [] ("k".data) (.pstr ("v".data)) (some 1)).2 ("k".data)
        = some (.pstr ("v".data)) :=
  C1_memory_backend_ignores_ttl ("k".data) (.pstr ("v".data)) (some 1) (some 7200) []

/-- C2 counterexample: with an empty credential pool and the one-entry retry
schedule `[3]`, the run performs two `get_key` acquisitions and sleeps the
schedule entry — contradicting the claim that a none result from credential
acquisition is surfaced on the first attempt and never retried. -/
theorem C2_counterexample :
    ¬ ((call_with_custom_retry [3] (fun _ => .rateLimited) (KeyManager.init []) 0).keyAcquisitions = 1
      ∧ (call_with_custom_retry [3] (fun _ => .rateLimited) (KeyManager.init []) 0).sleeps = []) := by
  decide

/-- C2 amended: in the retry loop, a none result from credential acquisition
raises a generic exception that the generic handler retries like any other
non-429 failure: with a schedule of length N the loop performs N+1
acquisition attempts, sleeping every schedule entry in order between them,
and only then surfaces the terminal no-credentials failure; no outbound HTTP
call is ever made. -/
theorem C2_no_credentials_is_retried (delays : List Nat)
    (responses : Nat → UpstreamResponse) (km : KeyManager) (h : km.keys = []) :
    call_with_custom_retry delays responses km 0
      = ⟨.noKeysError, km, 0, delays.length + 1, delays⟩ := by
  have hr := retryLoop_noKeys delays responses (delays.length + 1) 0 0 0 [] km h
    (by omega) (by omega)
  unfold call_with_custom_retry
  rw [Nat.sub_zero, hr]
  simp

/-- C2 witness: with the empty pool and schedule `[3, 8]`, three acquisition
attempts occur and both delays are slept before the terminal failure. -/
theorem C2_no_credentials_is_retried_witness :
    (KeyManager.init []).keys = [] ∧
    call_with_custom_retry [3, 8] (fun _ => .rateLimited) (KeyManager.init []) 0
      = ⟨.noKeysError, KeyManager.init [], 0, 3, [3, 8]⟩ :=
  ⟨rfl, C2_no_credentials_is_retried [3, 8] (fun _ => .rateLimited) (KeyManager.init []) rfl⟩

/-- C3: with an upstream answering 429 on every attempt and a retry schedule
of length N, the retry loop performs exactly N+1 outbound attempts, sleeping
the schedule entries in order between consecutive attempts, and terminates
with the `RateLimitError` outcome; the pipeline surfaces that outcome, and it
is a different constructor from the generic upstream-error outcome. -/
theorem C3_rate_limit_exhausted (delays : List Nat) (cacheSt : MemCache)
    (th : Throttler) (km : KeyManager) (hashFn : Str → Str) (now sampled : ℚ)
    (prompt : Str) (temperature : ℚ) (max_output_tokens : Nat)
    (hkm : km.keys ≠ [])
    (hmiss : Cache.get_gemini_response cacheSt hashFn prompt = none) :
    (∃ km', call_with_custom_retry delays (fun _ => .rateLimited) km 0
      = ⟨.rateLimitExhausted, km', delays.length + 1, delays.length + 1, delays⟩) ∧
    (call_with_retry cacheSt th km hashFn delays (fun _ => .rateLimited) now sampled
        prompt temperature max_output_tokens true).outcome = .error .rateLimitExhausted ∧
    (∀ code, RetryOutcome.rateLimitExhausted ≠ RetryOutcome.upstreamError code) := by
  obtain ⟨km', h⟩ := retryLoop_always429 delays (delays.length + 1) 0 0 0 [] km hkm
    (by omega) (by omega)
  have hccr : call_with_custom_retry delays (fun _ => .rateLimited) km 0
      = ⟨.rateLimitExhausted, km', delays.length + 1, delays.length + 1, delays⟩ := by
    unfold call_with_custom_retry
    rw [Nat.sub_zero, h]
    simp
  refine ⟨⟨km', hccr⟩, ?_, fun code hc => RetryOutcome.noConfusion hc⟩
  exact call_with_retry_miss_error cacheSt th km hashFn delays (fun _ => .rateLimited)
    now sampled prompt temperature max_output_tokens .rateLimitExhausted hmiss
    (by rw [hccr]) (fun t hc => RetryOutcome.noConfusion hc)

/-- C3 witness: schedule `[3, 8]`, a one-credential pool and an always-429
upstream give three outbound attempts, the sleeps `[3, 8]` in order, and the
rate-limit outcome. -/
theorem C3_rate_limit_exhausted_witness :
    (kmDemo.keys ≠ [] ∧ Cache.get_gemini_response [] hfDemo promptDemo = none) ∧
    ((∃ km', call_with_custom_retry [3, 8] (fun _ => .rateLimited) kmDemo 0
      = ⟨.rateLimitExhausted, km', 3, 3, [3, 8]⟩) ∧
    (call_with_retry [] thDemo kmDemo hfDemo [3, 8] (fun _ => .rateLimited) 0 0
        promptDemo 0 10 true).outcome = .error .rateLimitExhausted ∧
    (∀ code, RetryOutcome.rateLimitExhausted ≠ RetryOutcome.upstreamError code)) :=
  ⟨⟨by decide, rfl⟩,
    C3_rate_limit_exhausted [3, 8] [] thDemo kmDemo hfDemo 0 0 promptDemo 0 10
      (by decide) rfl⟩

/-- C4 counterexample: on the in-memory backend, after populating the keys
`ns:a` and `xns:b` and calling `clear_pattern` with the pattern `ns:*`, the
key `xns:b` — which does not start with the prefix `ns:` — has also been
removed, contradicting the claim that every key without the prefix is still
present with its previous value (and the returned count is 2, not 1). -/
theorem C4_counterexample :
    ¬ (Cache.get (Cache.clear_pattern
          (Cache.set (Cache.set [] ("ns:a".data) (.pstr ("1".data)) none).2
            ("xns:b".data) (.pstr ("2".data)) none).2
          ("ns:*".data)).2 ("xns:b".data)
        = some (.pstr ("2".data))) := by
  decide

/-- C4 amended: on the in-memory backend, `clear_pattern(p)` removes exactly
the entries whose key contains `p` with its asterisks removed as a substring
(not only the keys with prefix `p`): after the call a key containing the
needle is absent, any other key still holds its previous value, and the
returned count equals the number of removed entries.  (The shared-backend
glob semantics of `redis.keys` therefore do not coincide with the in-memory
semantics.) -/
theorem C4_clear_pattern_is_substring_match (c : MemCache) (pattern k : Str) :
    Cache.get (Cache.clear_pattern c pattern).2 k
      = (if pyInB (removeStars pattern) k then none else Cache.get c k) ∧
    (Cache.clear_pattern c pattern).1
      = c.length - (Cache.clear_pattern c pattern).2.length := by
  constructor
  · have e2 : (Cache.clear_pattern c pattern).2
        = c.filter (fun p => !(pyInB (removeStars pattern) p.1)) := rfl
    rw [e2, Cache.get_filter_del c (fun k' => pyInB (removeStars pattern) k') k]
  · have h := Cache.filter_del_length c (fun k' => pyInB (removeStars pattern) k')
    have e1 : (Cache.clear_pattern c pattern).1
        = ((c.map Prod.fst).filter (fun k' => pyInB (removeStars pattern) k')).length := rfl
    have e2 : (Cache.clear_pattern c pattern).2
        = c.filter (fun p => !(pyInB (removeStars pattern) p.1)) := rfl
    rw [e1, e2]
    omega

/-- C5: if the upstream answers 429 on the first j attempts and then a 200
whose payload text is empty on attempt index j, the retry loop stops
immediately with the fixed fallback string: exactly j+1 outbound attempts are
made and only the j sleeps forced by the preceding 429s occur — the empty
completion itself consumes no retry-schedule sleep and triggers no further
attempt, at whatever attempt index it occurs. -/
theorem C5_empty_completion_stops (delays : List Nat)
    (responses : Nat → UpstreamResponse) (km : KeyManager) (j : Nat)
    (hkm : km.keys ≠ []) (hj : j ≤ delays.length)
    (h429 : ∀ i, i < j → responses i = .rateLimited)
    (hemp : responses j = .ok []) :
    ∃ km', call_with_custom_retry delays responses km 0
      = ⟨.success fallback_text, km', j + 1, j + 1, delays.take j⟩ := by
  obtain ⟨km', h⟩ := retryLoop_429_until_empty delays responses j hj h429 hemp
    (delays.length + 1) 0 0 [] km hkm (by omega) (by omega)
  refine ⟨km', ?_⟩
  unfold call_with_custom_retry
  rw [Nat.sub_zero, h]
  simp

/-- C5 witness: with schedule `[3, 8]`, one 429 and then an empty 200, the
run makes two outbound attempts, sleeps only `[3]`, and returns the
fallback. -/
theorem C5_empty_completion_stops_witness :
    (kmDemo.keys ≠ [] ∧
      (∀ i, i < 1 → (fun n => if n < 1 then .rateLimited else UpstreamResponse.ok []) i
        = UpstreamResponse.rateLimited) ∧
      (fun n => if n < 1 then .rateLimited else UpstreamResponse.ok []) 1
        = UpstreamResponse.ok []) ∧
    (∃ km', call_with_custom_retry [3, 8]
        (fun n => if n < 1 then .rateLimited else UpstreamResponse.ok []) kmDemo 0
      = ⟨.success fallback_text, km', 2, 2, [3]⟩) :=
  ⟨⟨by decide, by decide, by decide⟩,
    C5_empty_completion_stops [3, 8]
      (fun n => if n < 1 then .rateLimited else UpstreamResponse.ok []) kmDemo 1
      (by decide) (by decide) (by decide) (by decide)⟩

/-- C6: with `use_cache` set and a cache entry (the `{'text': ...}` dict
written by `set_gemini_response`) already present for the prompt's key, the
pipeline returns that entry's text with `cached=True` and the entire shared
state is untouched: the cache, the throttler's last-grant timestamp, the
credential pool's rotation cursor and failed set are all unchanged, no
outbound call is made, no credential is acquired, no sleep occurs, and the
pacer is never invoked. -/
theorem C6_cache_hit_is_pure (cacheSt : MemCache) (th : Throttler) (km : KeyManager)
    (hashFn : Str → Str) (retry_delays : List Nat) (responses : Nat → UpstreamResponse)
    (now sampled : ℚ) (prompt : Str) (temperature : ℚ) (max_output_tokens : Nat)
    (t : Str)
    (h : Cache.get_gemini_response cacheSt hashFn prompt = some (.pdict t)) :
    call_with_retry cacheSt th km hashFn retry_delays responses now sampled prompt
        temperature max_output_tokens true
      = ⟨.success t true, cacheSt, th, km, 0, 0, [], false⟩ :=
  call_with_retry_hit cacheSt th km hashFn retry_delays responses now sampled prompt
    temperature max_output_tokens t h

/-- C6 witness: a concrete pre-populated cache hit is returned as-is with the
throttler and the credential pool untouched. -/
theorem C6_cache_hit_is_pure_witness :
    (Cache.get_gemini_response [(Cache.gemini_key hfDemo promptDemo, .pdict ("v".data))]
        hfDemo promptDemo = some (.pdict ("v".data))) ∧
    call_with_retry [(Cache.gemini_key hfDemo promptDemo, .pdict ("v".data))] thDemo
        kmDemo hfDemo [3] (fun _ => .rateLimited) 0 0 promptDemo 0 10 true
      = ⟨.success ("v".data) true, [(Cache.gemini_key hfDemo promptDemo, .pdict ("v".data))],
          thDemo, kmDemo, 0, 0, [], false⟩ :=
  ⟨by decide,
    C6_cache_hit_is_pure [(Cache.gemini_key hfDemo promptDemo, .pdict ("v".data))] thDemo
      kmDemo hfDemo [3] (fun _ => .rateLimited) 0 0 promptDemo 0 10 ("v".data) (by decide)⟩

/-- C7: for sequential calls of the pacer, under the idealized clock, when a
previous grant happened at time t and the fresh sample lies in
[min_delay, max_delay], the moment control returns is recorded as the new
last-grant timestamp, and the gap between the two consecutive grants is at
least the freshly sampled delay — hence at least min_delay. -/
theorem C7_pacing_gap (th : Throttler) (t now sampled : ℚ)
    (hlast : th.last_request_time = some t)
    (hmin : th.min_delay ≤ sampled) (_hmax : sampled ≤ th.max_delay)
    (_hmono : t ≤ now) :
    (Throttler.wait th now sampled).2.last_request_time
        = some (Throttler.wait th now sampled).1 ∧
    sampled ≤ (Throttler.wait th now sampled).1 - t ∧
    th.min_delay ≤ (Throttler.wait th now sampled).1 - t := by
  simp only [Throttler.wait, hlast]
  by_cases hc : now - t < sampled
  · rw [if_pos hc]
    refine ⟨rfl, ?_, ?_⟩
    · show sampled ≤ now + (sampled - (now - t)) - t
      linarith
    · show th.min_delay ≤ now + (sampled - (now - t)) - t
      linarith
  · rw [if_neg hc]
    have hge : sampled ≤ now - t := le_of_not_lt hc
    exact ⟨rfl, hge, le_trans hmin hge⟩

/-- C7 witness: a throttler with bounds [2, 2], a previous grant at 0 and the
next call arriving immediately grants no earlier than 2 after the previous
grant, recording the grant time. -/
theorem C7_pacing_gap_witness :
    ((⟨2, 2, some 0⟩ : Throttler).min_delay ≤ (2 : ℚ)) ∧
    ((Throttler.wait ⟨2, 2, some 0⟩ 0 2).2.last_request_time
        = some (Throttler.wait ⟨2, 2, some 0⟩ 0 2).1 ∧
      (2 : ℚ) ≤ (Throttler.wait ⟨2, 2, some 0⟩ 0 2).1 - 0 ∧
      (⟨2, 2, some 0⟩ : Throttler).min_delay ≤ (Throttler.wait ⟨2, 2, some 0⟩ 0 2).1 - 0) :=
  ⟨le_refl 2,
    C7_pacing_gap ⟨2, 2, some 0⟩ 0 0 2 rfl (le_refl 2) (le_refl 2) (le_refl 0)⟩

/-- C8: `get_key` returns none exactly when the pool holds zero configured
credentials; and whenever the pool is non-empty but every credential is in
the failed set, `get_key` first clears the failed set and returns a
credential drawn from the full pool — never none. -/
theorem C8_get_key_none_iff_no_keys (km : KeyManager) :
    ((KeyManager.get_key km).1 = none ↔ km.keys = []) ∧
    (km.keys ≠ [] → (∀ k ∈ km.keys, k ∈ km.failed_keys) →
      (∃ key, (KeyManager.get_key km).1 = some key ∧ key ∈ km.keys) ∧
      (KeyManager.get_key km).2.failed_keys = []) := by
  constructor
  · constructor
    · intro h
      by_contra hne
      obtain ⟨k, hk⟩ := KeyManager.get_key_isSome km hne
      rw [h] at hk
      exact Option.noConfusion hk
    · intro h
      rw [KeyManager.get_key_empty km h]
  · intro hne hall
    have hav : km.keys.filter (fun k => decide (k ∉ km.failed_keys)) = [] := by
      refine List.filter_eq_nil_iff.mpr ?_
      intro k hk
      simp [hall k hk]
    have hkeF : km.keys.isEmpty = false := List.isEmpty_eq_false.mpr hne
    have hlen : 0 < km.keys.length := List.length_pos.mpr hne
    have hidx : km.current_index % km.keys.length < km.keys.length :=
      Nat.mod_lt _ hlen
    simp only [KeyManager.get_key, hkeF, Bool.false_eq_true, if_false, hav,
      List.isEmpty_nil, if_true]
    refine ⟨⟨km.keys.getD (km.current_index % km.keys.length) [], rfl, ?_⟩, trivial⟩
    rw [List.getD_eq_getElem km.keys [] hidx]
    exact List.getElem_mem hidx

/-- C8 witness: with the two-credential pool both marked failed, `get_key`
clears the failed set and returns a pool credential; and its result is not
none precisely because the pool is non-empty. -/
theorem C8_get_key_none_iff_no_keys_witness :
    (((KeyManager.get_key ⟨[("a".data), ("b".data)], 0, [("a".data), ("b".data)]⟩).1 = none
        ↔ (⟨[("a".data), ("b".data)], 0, [("a".data), ("b".data)]⟩ : KeyManager).keys = []) ∧
      ((∃ key, (KeyManager.get_key ⟨[("a".data), ("b".data)], 0, [("a".data), ("b".data)]⟩).1
            = some key
          ∧ key ∈ (⟨[("a".data), ("b".data)], 0, [("a".data), ("b".data)]⟩ : KeyManager).keys) ∧
        (KeyManager.get_key ⟨[("a".data), ("b".data)], 0, [("a".data), ("b".data)]⟩).2.failed_keys
          = [])) :=
  ⟨(C8_get_key_none_iff_no_keys ⟨[("a".data), ("b".data)], 0, [("a".data), ("b".data)]⟩).1,
    (C8_get_key_none_iff_no_keys ⟨[("a".data), ("b".data)], 0, [("a".data), ("b".data)]⟩).2
      (by decide) (by decide)⟩

/-- C9: the cache key of the generation path is a function of the prompt text
alone (`gemini:` plus the digest of the prompt) — temperature and
max-output-token parameters never enter it.  Behaviorally: after a first call
with parameters (t₁, m₁) succeeds with text r, a second call with the same
prompt but any other parameters (t₂, m₂) is served the first call's cached
response: it returns r with `cached=True`, makes no outbound call and
acquires no credential. -/
theorem C9_cache_key_ignores_params (cacheSt : MemCache) (th : Throttler)
    (km : KeyManager) (hashFn : Str → Str) (delays : List Nat)
    (responses₂ : Nat → UpstreamResponse) (now₁ sampled₁ now₂ sampled₂ : ℚ)
    (prompt : Str) (t₁ t₂ : ℚ) (m₁ m₂ : Nat) (r : Str)
    (hmiss : Cache.get_gemini_response cacheSt hashFn prompt = none)
    (hkm : km.keys ≠ []) (hr : r ≠ []) :
    (let c₁ := call_with_retry cacheSt th km hashFn delays (fun _ => .ok r)
        now₁ sampled₁ prompt t₁ m₁ true
     c₁.outcome = .success r false ∧
     call_with_retry c₁.cache c₁.throttler c₁.km hashFn delays responses₂
         now₂ sampled₂ prompt t₂ m₂ true
       = ⟨.success r true, c₁.cache, c₁.throttler, c₁.km, 0, 0, [], false⟩) := by
  have hc₁ := call_with_retry_miss_ok cacheSt th km hashFn delays (fun _ => .ok r)
    now₁ sampled₁ prompt t₁ m₁ r hmiss hkm rfl hr
  dsimp only
  rw [hc₁]
  refine ⟨rfl, ?_⟩
  exact call_with_retry_hit _ _ _ hashFn delays responses₂ now₂ sampled₂ prompt t₂ m₂ r
    (Cache.get_gemini_response_set_self cacheSt hashFn prompt (.pdict r) none)

/-- C9 witness: a first call at temperature 0 and a second call at temperature
1 with a different token cap share the cache entry: the second returns the
first call's text with `cached=True` and zero outbound calls. -/
theorem C9_cache_key_ignores_params_witness :
    (Cache.get_gemini_response [] hfDemo promptDemo = none ∧ kmDemo.keys ≠ []
      ∧ ("hello".data : Str) ≠ []) ∧
    (let c₁ := call_with_retry [] thDemo kmDemo hfDemo [3] (fun _ => .ok ("hello".data))
        0 0 promptDemo 0 10 true
     c₁.outcome = .success ("hello".data) false ∧
     call_with_retry c₁.cache c₁.throttler c₁.km hfDemo [3] (fun _ => .rateLimited)
         0 0 promptDemo 1 99 true
       = ⟨.success ("hello".data) true, c₁.cache, c₁.throttler, c₁.km, 0, 0, [], false⟩) :=
  ⟨⟨rfl, by decide, by decide⟩,
    C9_cache_key_ignores_params [] thDemo kmDemo hfDemo [3] (fun _ => .rateLimited)
      0 0 0 0 promptDemo 0 1 10 99 ("hello".data) rfl (by decide) (by decide)⟩

/-- C10: with `use_cache` set, when the upstream answers the first attempt
with a 200 carrying an empty text payload, the run returns the fixed fallback
string and — since the fallback is non-empty, hence truthy — the post-loop
cache write stores it under the prompt's key; consequently a subsequent call
with the same prompt (within the TTL window, which the in-memory backend
never ends) returns the fallback with `cached=True`, makes no outbound call
and leaves all state unchanged. -/
theorem C10_fallback_is_cached (cacheSt : MemCache) (th : Throttler)
    (km : KeyManager) (hashFn : Str → Str) (delays : List Nat)
    (responses₂ : Nat → UpstreamResponse) (now₁ sampled₁ now₂ sampled₂ : ℚ)
    (prompt : Str) (t₁ t₂ : ℚ) (m₁ m₂ : Nat)
    (hmiss : Cache.get_gemini_response cacheSt hashFn prompt = none)
    (hkm : km.keys ≠ []) :
    (let c₁ := call_with_retry cacheSt th km hashFn delays (fun _ => .ok [])
        now₁ sampled₁ prompt t₁ m₁ true
     c₁.outcome = .success fallback_text false ∧
     Cache.get_gemini_response c₁.cache hashFn prompt = some (.pdict fallback_text) ∧
     call_with_retry c₁.cache c₁.throttler c₁.km hashFn delays responses₂
         now₂ sampled₂ prompt t₂ m₂ true
       = ⟨.success fallback_text true, c₁.cache, c₁.throttler, c₁.km, 0, 0, [], false⟩) := by
  have hc₁ := call_with_retry_miss_empty cacheSt th km hashFn delays (fun _ => .ok [])
    now₁ sampled₁ prompt t₁ m₁ hmiss hkm rfl
  dsimp only
  rw [hc₁]
  refine ⟨rfl, ?_, ?_⟩
  · exact Cache.get_gemini_response_set_self cacheSt hashFn prompt (.pdict fallback_text) none
  · exact call_with_retry_hit _ _ _ hashFn delays responses₂ now₂ sampled₂ prompt t₂ m₂
      fallback_text
      (Cache.get_gemini_response_set_self cacheSt hashFn prompt (.pdict fallback_text) none)

/-- C10 witness: an empty completion on the first attempt caches the fallback
and the second call is served from the cache with `cached=True`. -/
theorem C10_fallback_is_cached_witness :
    (Cache.get_gemini_response [] hfDemo promptDemo = none ∧ kmDemo.keys ≠ []) ∧
    (let c₁ := call_with_retry [] thDemo kmDemo hfDemo [3] (fun _ => .ok [])
        0 0 promptDemo 0 10 true
     c₁.outcome = .success fallback_text false ∧
     Cache.get_gemini_response c₁.cache hfDemo promptDemo = some (.pdict fallback_text) ∧
     call_with_retry c₁.cache c₁.throttler c₁.km hfDemo [3] (fun _ => .rateLimited)
         0 0 promptDemo 1 99 true
       = ⟨.success fallback_text true, c₁.cache, c₁.throttler, c₁.km, 0, 0, [], false⟩) :=
  ⟨⟨rfl, by decide⟩,
    C10_fallback_is_cached [] thDemo kmDemo hfDemo [3] (fun _ => .rateLimited)
      0 0 0 0 promptDemo 0 1 10 99 rfl (by decide)⟩

end CompanyResearch
